import Mathlib

/-!
Shallow embedding of the retrieval-and-grounding pipeline of the
`/api/ask` route handler (`src/app/api/ask/route.ts`) of the
PizzaDAO crew question-answering service, together with the pieces of
the chat UI (`page` components) that shape the displayed answer.

JavaScript strings are modelled as Lean `String`s; the handful of
JS string methods the route uses (`toLowerCase`, `trim`, `split`,
`includes`, `slice`, `length`, `join`) are re-implemented structurally
over the underlying character list so that every definition is
executable and kernel-reducible.  JS numbers that carry similarity
scores are modelled as rationals (`ℚ`); integer tuning parameters as
`Int`.  Fallible external services (embedding, vector search, chat
completion) are abstracted as total functions supplied by a `Services`
record, and the route handler `POST` returns, next to its response, a
`Trace` counting how many calls were issued to each external service.
-/

namespace CrewQA

/-! ## JS string primitives (ASCII-faithful models) -/

/-- Character count of a JS string (`s.length`).  JS counts UTF-16 code
units, the model counts characters; they agree on the BMP texts the
route manipulates. -/
def jsLen (s : String) : Nat := s.data.length

/-- JS `s.toLowerCase()` (ASCII letters). -/
def jsToLower (s : String) : String := ⟨s.data.map Char.toLower⟩

/-- JS `s.toUpperCase()` (ASCII letters). -/
def jsToUpper (s : String) : String := ⟨s.data.map Char.toUpper⟩

/-- Strip leading and trailing whitespace from a character list. -/
def trimList (l : List Char) : List Char :=
  ((l.dropWhile Char.isWhitespace).reverse.dropWhile Char.isWhitespace).reverse

/-- JS `s.trim()`. -/
def jsTrim (s : String) : String := ⟨trimList s.data⟩

/-- JS `s.slice(0, n)` for a non-negative bound. -/
def jsSlice0 (s : String) (n : Nat) : String := ⟨s.data.take n⟩

/-- `isPrefixL sub l` is true when `sub` is a prefix of `l`. -/
def isPrefixL : List Char → List Char → Bool
  | [], _ => true
  | _ :: _, [] => false
  | a :: as, b :: bs => (a == b) && isPrefixL as bs

/-- `containsL sub l` is true when `sub` occurs contiguously in `l`
(JS `includes` semantics: the empty string occurs everywhere). -/
def containsL (sub : List Char) : List Char → Bool
  | [] => sub.isEmpty
  | c :: t => isPrefixL sub (c :: t) || containsL sub t

/-- JS `s.includes(sub)`. -/
def jsIncludes (s sub : String) : Bool := containsL sub.data s.data

/-- Split a character list at every occurrence of `c`, keeping empty
pieces (JS `split` with a single-character separator). -/
def splitListOn (c : Char) : List Char → List (List Char)
  | [] => [[]]
  | x :: xs =>
    if x = c then [] :: splitListOn c xs
    else
      match splitListOn c xs with
      | [] => [[x]]
      | h :: t => (x :: h) :: t

/-- JS `text.split("\n")`: always non-empty, keeps empty lines. -/
def splitLines (s : String) : List String :=
  (splitListOn (Char.ofNat 10) s.data).map (fun l => (⟨l⟩ : String))

/-- JS `parts.join(sep)`. -/
def joinWith (sep : String) : List String → String
  | [] => ""
  | [s] => s
  | s :: rest => s ++ sep ++ joinWith sep rest

/-! ## Keyword extraction and rerank (`keywords`, `rerankScore`) -/

/-- Characters the `keywords` regex keeps: `[a-z0-9_-]`. -/
def keepChar (c : Char) : Bool :=
  (97 ≤ c.toNat && c.toNat ≤ 122) || (48 ≤ c.toNat && c.toNat ≤ 57) ||
  c.toNat = 95 || c.toNat = 45

/-- Domain filler words excluded from keywords. -/
def stopWords : List String := ["pizza", "pizzadao", "crew", "sheets"]

/-- Split a mapped character list into whitespace-separated tokens.
JS `split(/\s+/)` can emit one leading empty token; it is removed by
the length-≥-3 filter in `keywords`, so dropping all empty pieces here
yields the same keyword list. -/
def splitTokens (l : List Char) : List (List Char) :=
  (splitListOn (Char.ofNat 32) l).filter (fun p => p ≠ [])

/-- `keywords(q)` from the route: lowercase, replace characters outside
`[a-z0-9\s_-]` by spaces, split on whitespace, keep tokens of length ≥ 3
that are not in the stoplist. -/
def keywords (q : String) : List String :=
  let mapped := q.data.map (fun c =>
    let c2 := Char.toLower c
    if keepChar c2 then c2 else Char.ofNat 32)
  ((splitTokens mapped).map (fun l => (⟨l⟩ : String))).filter
    (fun t => 3 ≤ jsLen t && !(stopWords.contains t))

/-- `rerankScore(chunkText, q, similarity)`: base similarity plus a
lexical-overlap bonus of 0.03 per matched keyword, capped at 0.25; the
similarity alone when the question yields no keywords. -/
def rerankScore (chunkText q : String) (similarity : ℚ) : ℚ :=
  let keys := keywords q
  if keys = [] then similarity
  else
    let lo := jsToLower chunkText
    similarity + min (0.25 : ℚ)
      (((keys.filter (fun k => jsIncludes lo k)).length : ℚ) * (0.03 : ℚ))

/-! ## Snippet extraction (`makeSnippet`) -/

/-- The `add` closure of `makeSnippet`: skip empty lines and a line equal
to the last picked one, otherwise append. -/
def addLine (picked : List String) (l : String) : List String :=
  if l = "" then picked
  else if picked.getLast? = some l then picked
  else picked ++ [l]

/-- The scan loop of `makeSnippet`: walk all lines; for each line whose
lowercase form contains a keyword, add the previous line, the line and
the next line, up to 18 hit blocks.  `fuel` starts at `lines.length` and
counts the remaining iterations (`fuel = lines.length - i` throughout),
making the JS `for` loop structurally recursive. -/
def snippetLoop (lines : List String) (keys : List String) :
    Nat → Nat → Nat → List String → List String
  | 0, _, _, picked => picked
  | fuel + 1, i, blocks, picked =>
    if 18 ≤ blocks then picked
    else
      let lo := jsToLower (lines.getD i "")
      if keys.any (fun k => jsIncludes lo k) then
        let p1 := addLine picked (lines.getD (i - 1) "")
        let p2 := addLine p1 (lines.getD i "")
        let p3 := addLine p2 (lines.getD (min (lines.length - 1) (i + 1)) "")
        snippetLoop lines keys fuel (i + 1) (blocks + 1) p3
      else snippetLoop lines keys fuel (i + 1) blocks picked

/-- `makeSnippet` before the final budget truncation: header-ish lines
from the first 12 lines, then keyword-hit blocks, with the first 30
lines (joined and trimmed) as fallback when nothing was picked. -/
def makeSnippetRaw (text q : String) : String :=
  let lines := splitLines text
  let keys := keywords q
  let headerish := (lines.take 12).filter
    (fun l => jsIncludes l "|" || jsIncludes (jsToLower l) "headers")
  let picked0 := headerish.foldl addLine []
  let picked := snippetLoop lines keys lines.length 0 0 picked0
  let snippet := jsTrim (joinWith "\n" (picked.filter (fun l => !(l == ""))))
  if snippet = "" then jsTrim (joinWith "\n" (lines.take 30)) else snippet

/-- The truncation marker appended when a snippet is cut. -/
def ellipsisMark : String := "…"

/-- `makeSnippet(text, q, maxChars)`: the raw snippet, truncated to the
character budget with the marker appended when it was cut. -/
def makeSnippet (text q : String) (maxChars : Nat) : String :=
  if maxChars < jsLen (makeSnippetRaw text q) then
    jsSlice0 (makeSnippetRaw text q) maxChars ++ ellipsisMark
  else makeSnippetRaw text q

/-! ## Retrieved rows, deduplication and rerank ordering -/

/-- The loosely-typed `metadata` map of a chunk row, of which the route
only reads the optional tab locator `gid` (`c.metadata?.gid ?? null`). -/
structure SheetMeta where
  gid : Option Int
deriving DecidableEq

/-- A `MatchChunkRow` returned by the `match_chunks` search function.
The float `similarity` is modelled as a rational. -/
structure MatchChunkRow where
  id : String
  spreadsheet_id : String
  spreadsheet_title : Option String
  sheet_name : String
  a1_range : String
  text : String
  metadata : Option SheetMeta
  similarity : ℚ
deriving DecidableEq

/-- The dedup key string of the route. -/
def dedupKey (c : MatchChunkRow) : String :=
  c.spreadsheet_id ++ "|" ++ c.sheet_name ++ "|" ++ c.a1_range

/-- JS `Map.set` on an insertion-ordered association list: replace in
place when the key exists, append otherwise. -/
def setByKey : List (String × MatchChunkRow) → String → MatchChunkRow →
    List (String × MatchChunkRow)
  | [], k, v => [(k, v)]
  | (k2, v2) :: rest, k, v =>
    if k2 == k then (k, v) :: rest else (k2, v2) :: setByKey rest k v

/-- One iteration of the dedup loop: keep the incoming row only when no
row with its key was seen yet or its similarity is strictly higher. -/
def mapStep (m : List (String × MatchChunkRow)) (c : MatchChunkRow) :
    List (String × MatchChunkRow) :=
  match List.lookup (dedupKey c) m with
  | none => setByKey m (dedupKey c) c
  | some prev =>
    if prev.similarity < c.similarity then setByKey m (dedupKey c) c else m

/-- The `byKey` map built by the dedup loop, in insertion order. -/
def byKeyMap (raw : List MatchChunkRow) : List (String × MatchChunkRow) :=
  raw.foldl mapStep []

/-- `Array.from(byKey.values())`. -/
def dedupeByKey (raw : List MatchChunkRow) : List MatchChunkRow :=
  (byKeyMap raw).map Prod.snd

/-- Insert a row into a descending-score list after all rows of greater
or equal score (stable insertion). -/
def insertByScore (score : MatchChunkRow → ℚ) (c : MatchChunkRow) :
    List MatchChunkRow → List MatchChunkRow
  | [] => [c]
  | d :: rest =>
    if score d ≤ score c then c :: d :: rest
    else d :: insertByScore score c rest

/-- The route's `chunksAll.sort((a, b) => sb - sa)`: a stable sort by
descending combined score (ES2019 `Array.prototype.sort` is stable and
the comparator is a deterministic function of the elements). -/
def sortByScoreDesc (score : MatchChunkRow → ℚ) :
    List MatchChunkRow → List MatchChunkRow
  | [] => []
  | c :: rest => insertByScore score c (sortByScoreDesc score rest)

/-! ## Citations, evidence, rendered sources -/

/-- `sheetUrl(spreadsheetId, gid)`.  The JS conditional `gid ? … : …`
tests truthiness, so `0`, `null` and `undefined` all yield the base
document URL. -/
def sheetUrl (spreadsheetId : String) (gid : Option Int) : String :=
  match gid with
  | some g =>
    if g = 0 then "https://docs.google.com/spreadsheets/d/" ++ spreadsheetId ++ "/edit"
    else "https://docs.google.com/spreadsheets/d/" ++ spreadsheetId ++
      "/edit#gid=" ++ toString g
  | none => "https://docs.google.com/spreadsheets/d/" ++ spreadsheetId ++ "/edit"

/-- A citation entry of the response. -/
structure Citation where
  spreadsheet_id : String
  spreadsheet_title : String
  url : String
  sheet_name : String
  a1_range : String
  similarity : ℚ
deriving DecidableEq

/-- The per-row citation constructor used by the `top.map` of step 5. -/
def citationOf (c : MatchChunkRow) : Citation :=
  { spreadsheet_id := c.spreadsheet_id
    spreadsheet_title := c.spreadsheet_title.getD c.spreadsheet_id
    url := sheetUrl c.spreadsheet_id (c.metadata.bind SheetMeta.gid)
    sheet_name := c.sheet_name
    a1_range := c.a1_range
    similarity := c.similarity }

/-- `citations = top.map(...)`. -/
def mkCitations (top : List MatchChunkRow) : List Citation :=
  top.map citationOf

/-- An evidence entry of the response. -/
structure Evidence where
  source : Nat
  spreadsheet_id : String
  sheet_name : String
  a1_range : String
  preview : String
deriving DecidableEq

/-- The evidence entry built for the row at 0-based position `i`. -/
def evidenceEntry (q : String) (i : Nat) (c : MatchChunkRow) : Evidence :=
  ⟨i + 1, c.spreadsheet_id, c.sheet_name, c.a1_range, makeSnippet c.text q 900⟩

/-- `evidence = top.map((c, i) => ...)`, with the running index made
explicit. -/
def mkEvidence (q : String) : Nat → List MatchChunkRow → List Evidence
  | _, [] => []
  | i, c :: rest => evidenceEntry q i c :: mkEvidence q (i + 1) rest

/-- The rendered `Source #i+1` block for one row. -/
def sourceEntry (q : String) (i : Nat) (c : MatchChunkRow) : String :=
  joinWith "\n"
    ["Source #" ++ toString (i + 1),
     "Spreadsheet: " ++ c.spreadsheet_title.getD c.spreadsheet_id,
     "SpreadsheetId: " ++ c.spreadsheet_id,
     "Tab: " ++ c.sheet_name,
     "Range: " ++ c.a1_range,
     "Content:\n" ++ makeSnippet c.text q 1200]

/-- `sources = top.map((c, i) => ...)`, the blocks rendered into the
model prompt. -/
def mkSources (q : String) : Nat → List MatchChunkRow → List String
  | _, [] => []
  | i, c :: rest => sourceEntry q i c :: mkSources q (i + 1) rest

/-! ## Request body, message coercion, query formulation -/

/-- A cleaned chat message. -/
structure ChatMessage where
  role : String
  content : String
deriving DecidableEq

/-- A raw message of the request body: the role is an arbitrary string
and the content may be absent (`null`/`undefined`, coerced to `""`). -/
structure RawMessage where
  role : String
  content : Option String
deriving DecidableEq

/-- The parsed request body.  `messages` is `none` when absent or not an
array, and its entries may be `null`. -/
structure AskBody where
  messages : Option (List (Option RawMessage))
  question : Option String
  topK : Option Int
  filterSpreadsheetId : Option String

/-- The per-entry filter of `coerceMessages`: drop null entries, entries
whose role is neither `user` nor `assistant`, and entries whose trimmed
content is blank; keep the trimmed content otherwise. -/
def cleanMessage (m? : Option RawMessage) : Option ChatMessage :=
  match m? with
  | none => none
  | some m =>
    if m.role ≠ "user" ∧ m.role ≠ "assistant" then none
    else
      let content := jsTrim (m.content.getD "")
      if content = "" then none else some ⟨m.role, content⟩

/-- `coerceMessages(body)`: clean the message array, then append the
back-compat `question` as a user turn when the list is empty or has no
user turn. -/
def coerceMessages (body : AskBody) : List ChatMessage :=
  let cleaned := (body.messages.getD []).filterMap cleanMessage
  let q := jsTrim (body.question.getD "")
  let cleaned2 :=
    if cleaned = [] ∧ q ≠ "" then cleaned ++ [⟨"user", q⟩] else cleaned
  if (cleaned2 = [] ∨ cleaned2.all (fun m => m.role != "user")) ∧ q ≠ "" then
    cleaned2 ++ [⟨"user", q⟩]
  else cleaned2

/-- The current question: content of the most recent user turn, trimmed,
or `""` (`[...messages].reverse().find(user)?.content?.trim() || ""`). -/
def lastUserOf (messages : List ChatMessage) : String :=
  match messages.reverse.find? (fun m => m.role == "user") with
  | some m => jsTrim m.content
  | none => ""

/-- `buildRetrievalQuery(messages, fallbackQuestion)`: the fixed domain
preamble, the last 8 turns prefixed by their upper-cased role, and the
current question, trimmed. -/
def buildRetrievalQuery (messages : List ChatMessage) (fallbackQuestion : String) : String :=
  let lastUser :=
    match messages.reverse.find? (fun m => m.role == "user") with
    | some m => jsTrim m.content
    | none => ""
  let recent := joinWith "\n"
    ((messages.drop (messages.length - 8)).map
      (fun m => jsToUpper m.role ++ ": " ++ m.content))
  let q := jsTrim (if lastUser ≠ "" then lastUser else fallbackQuestion)
  jsTrim ("\nYou are retrieving information from PizzaDAO crew spreadsheets and related linked sheets.\nFocus on rosters, roles, statuses, meeting times, leads, cities, contacts, and IDs.\n\nRecent conversation:\n"
    ++ recent ++ "\n\nCurrent question:\n" ++ q ++ "\n")

/-! ## External services, response shape, the POST handler -/

/-- The trimmed system instruction of the route. -/
def SYSTEM_PROMPT : String :=
  "You are a precise analyst answering questions using ONLY the provided Sources from Google Sheets.\n\nRules:\n- Treat Sources as authoritative. Do not invent values, names, roles, emails, IDs, or dates.\n- Many Sources contain tables. Use headers to interpret rows correctly.\n- Prefer exact values as written (names, emails, roles, IDs, dates).\n- If the answer is not in the Sources, say what’s missing and suggest what to search for.\n- Always cite with [#] after the sentence/claim (e.g., ... [2] or ... [1,3]).\n- Prefer a short direct answer, then bullet details if helpful.\n\nIf the answer cannot be determined from the Sources, respond:\n\"I don’t see this information in the indexed sheets.\""

/-- The message sequence sent to the chat-completion service: system
instruction, bounded history, and the final user message carrying the
rendered sources. -/
def promptMessages (history : List ChatMessage) (sources : List String) :
    List (String × String) :=
  ("system", SYSTEM_PROMPT) ::
    (history.map (fun m => (m.role, m.content)) ++
      [("user", "Use the Sources below to answer the latest user question.\n\nSources:\n\n"
        ++ joinWith "\n\n---\n\n" sources)])

/-- Result of one `match_chunks` RPC: an optional error message and an
optional data array (`data ?? []` on consumption). -/
structure MatchResult where
  error : Option String
  data : Option (List MatchChunkRow)

/-- The external collaborators, abstracted as total functions.  `embed`
returns the vector `response.data[0].embedding`; `complete` returns
`completion.choices[0]?.message?.content` (none for a missing choice or
content). -/
structure Services where
  embed : String → List ℚ
  matchChunks : List ℚ → Int → Option String → MatchResult
  complete : List (String × String) → Option String

/-- How many calls were issued to each external service while handling
one request. -/
structure Trace where
  embedCalls : Nat
  searchCalls : Nat
  completeCalls : Nat
deriving DecidableEq

/-- The JSON response of the route: a success payload or a structured
error with a status code. -/
inductive ApiResponse where
  | ok (answer : String) (citations : List Citation) (evidence : List Evidence)
  | err (status : Nat) (error : String) (detail : Option String)
deriving DecidableEq

/-- The fixed fallback answer when the merged search result is empty. -/
def EMPTY_RAW_ANSWER : String :=
  "I don’t see this information in the indexed sheets. (If you expect it exists, the sheet may not be indexed yet, or the relevant table wasn’t retrieved.)"

/-- The fixed fallback answer when the reranked top slice is empty. -/
def EMPTY_TOP_ANSWER : String :=
  "I don’t see this information in the indexed sheets. (If you expect it exists, the relevant table wasn’t retrieved.)"

/-- Step 4–5 of the handler: call the completion service on the grounded
prompt and shape the answer, citations and evidence from the same `top`
list that was rendered into the prompt. -/
def shapeBranch (svc : Services) (messages : List ChatMessage)
    (lastUser : String) (top : List MatchChunkRow) : ApiResponse × Trace :=
  let sources := mkSources lastUser 0 top
  let modelHistory := messages.drop (messages.length - 8)
  let content := svc.complete (promptMessages modelHistory sources)
  (ApiResponse.ok (jsTrim (content.getD ""))
    (mkCitations top) (mkEvidence lastUser 0 top), ⟨2, 2, 1⟩)

/-- The POST handler of `/api/ask`, with the calls to the external
services counted in the returned `Trace`.  Both embeddings and both
`match_chunks` searches are issued (via `Promise.all`) before either
search result is inspected. -/
def POST (svc : Services) (body : AskBody) : ApiResponse × Trace :=
  let messages := coerceMessages body
  let lastUser := lastUserOf messages
  if lastUser = "" then (ApiResponse.err 400 "Missing question" none, ⟨0, 0, 0⟩)
  else
    let requestedTopK := min (max (body.topK.getD 35) 5) 120
    let candidateK := min (max (requestedTopK * 3) 40) 120
    let answerK := min (max (Int.fdiv (body.topK.getD 12) 2) 8) 20
    let retrievalQuery := buildRetrievalQuery messages lastUser
    let m1 := svc.matchChunks (svc.embed lastUser) candidateK body.filterSpreadsheetId
    let m2 := svc.matchChunks (svc.embed retrievalQuery) candidateK body.filterSpreadsheetId
    match m1.error with
    | some e => (ApiResponse.err 500 "match_chunks failed" (some e), ⟨2, 2, 0⟩)
    | none =>
      match m2.error with
      | some e => (ApiResponse.err 500 "match_chunks failed" (some e), ⟨2, 2, 0⟩)
      | none =>
        let raw := m1.data.getD [] ++ m2.data.getD []
        if raw = [] then (ApiResponse.ok EMPTY_RAW_ANSWER [] [], ⟨2, 2, 0⟩)
        else
          let top := (sortByScoreDesc
            (fun c => rerankScore c.text lastUser c.similarity)
            (dedupeByKey raw)).take answerK.toNat
          if top = [] then (ApiResponse.ok EMPTY_TOP_ANSWER [] [], ⟨2, 2, 0⟩)
          else shapeBranch svc messages lastUser top

/-! ## The chat UI's answer display (from the page component) -/

/-- The placeholder the chat page shows for a blank answer. -/
def EMPTY_ANSWER_PLACEHOLDER : String :=
  "I didn’t get an answer back (empty response)."

/-- The chat page's shaping of `json.answer`: the trimmed answer when it
is a non-blank string, the fixed placeholder otherwise. -/
def displayAnswer (jsonAnswer : Option String) : String :=
  match jsonAnswer with
  | some s => if jsTrim s ≠ "" then jsTrim s else EMPTY_ANSWER_PLACEHOLDER
  | none => EMPTY_ANSWER_PLACEHOLDER

/-- Whether a response is a success payload. -/
def isSuccess : ApiResponse → Bool
  | .ok _ _ _ => true
  | .err _ _ _ => false

/-- The answer text of a success payload. -/
def responseAnswer : ApiResponse → Option String
  | .ok a _ _ => some a
  | .err _ _ _ => none

/-! ## Concrete fixtures used by witnesses and counterexamples -/

/-- Default row used as the `getD` placeholder in indexed statements. -/
def defaultRow : MatchChunkRow := ⟨"", "", none, "", "", "", none, 0⟩

/-- Default citation placeholder. -/
def defaultCitation : Citation := citationOf defaultRow

/-- Default evidence placeholder. -/
def defaultEvidence : Evidence := evidenceEntry "" 0 defaultRow

/-- A sample retrieved row. -/
def demoRow : MatchChunkRow :=
  ⟨"d1", "doc1", none, "Roster", "A1:D20", "alpha|beta\ngamma", none, 9/10⟩

/-- A body carrying one user turn asking about the demo row. -/
def bodyDemo : AskBody :=
  ⟨some [some ⟨"user", some "gamma"⟩], none, none, none⟩

/-- Services whose search returns the demo row and whose completion
succeeds with whitespace-only text. -/
def svcBlankAnswer : Services :=
  ⟨fun _ => [], fun _ _ _ => ⟨none, some [demoRow]⟩, fun _ => some "   "⟩

/-- Services whose search succeeds with an empty result set. -/
def svcEmptySearch : Services :=
  ⟨fun _ => [], fun _ _ _ => ⟨none, some []⟩, fun _ => some "ok"⟩

/-- A body whose only user turn is the index-introspection phrase. -/
def bodyIntrospection : AskBody :=
  ⟨some [some ⟨"user", some "how many sheets are indexed"⟩], none, none, none⟩

/-- A body with no usable user turn: an assistant turn, a blank user
turn, a null entry, and a blank fallback question. -/
def bodyNoQuestion : AskBody :=
  ⟨some [some ⟨"assistant", some "hi"⟩, some ⟨"user", some "   "⟩, none],
    some "  ", none, none⟩

/-- Higher-similarity member of a same-triple duplicate pair whose
spreadsheet id contains the key separator. -/
def rowBar1 : MatchChunkRow := ⟨"r1", "a|b", none, "c", "d", "", none, 9/10⟩

/-- Lower-similarity duplicate of `rowBar1` (same identity triple). -/
def rowBar2 : MatchChunkRow := ⟨"r2", "a|b", none, "c", "d", "", none, 7/10⟩

/-- A row with a different identity triple but the same joined dedup key
as `rowBar1`. -/
def rowBar3 : MatchChunkRow := ⟨"r3", "a", none, "b|c", "d", "", none, 95/100⟩

/-- The 0.7-similarity copy of the overlapping passage of the spec
scenario. -/
def row07 : MatchChunkRow :=
  ⟨"c1", "doc2", none, "Leads", "B2:B9", "alpha", none, 7/10⟩

/-- The 0.85-similarity copy of the overlapping passage. -/
def row085 : MatchChunkRow :=
  ⟨"c2", "doc2", none, "Leads", "B2:B9", "alpha", none, 85/100⟩

/-- A row whose metadata carries the valid tab id `gid = 0`. -/
def rowGid0 : MatchChunkRow :=
  ⟨"g0", "docg", none, "Tab0", "A1:B2", "", some ⟨some 0⟩, 1⟩

/-- A row whose metadata carries the nonzero tab id `gid = 5`. -/
def rowGid5 : MatchChunkRow :=
  ⟨"g5", "docg", none, "Tab5", "A1:B2", "", some ⟨some 5⟩, 1⟩

/-! ## Specification-side definitions used to characterize the code -/

/-- One step of the collision rule as the spec words it: a later passage
replaces the survivor only when its similarity is strictly higher. -/
def stepOpt (acc : Option MatchChunkRow) (c : MatchChunkRow) : Option MatchChunkRow :=
  match acc with
  | none => some c
  | some p => if p.similarity < c.similarity then some c else some p

/-- The expected survivor of a key class: the first-seen passage of
maximal similarity (strictly-higher replaces, ties keep the earlier). -/
def pickBest (l : List MatchChunkRow) : Option MatchChunkRow :=
  l.foldl stepOpt none

/-- Decidable reading of "this entry is not a user turn with non-blank
content". -/
def noUserContentB (m? : Option RawMessage) : Bool :=
  match m? with
  | none => true
  | some m => m.role != "user" || (jsTrim (m.content.getD "") == "")

/-! ## Helper lemmas -/

theorem data_append (a b : String) : (a ++ b).data = a.data ++ b.data := by
  cases a
  cases b
  rfl

theorem jsLen_append (a b : String) : jsLen (a ++ b) = jsLen a + jsLen b := by
  unfold jsLen
  rw [data_append, List.length_append]

theorem jsLen_slice0_le (s : String) (n : Nat) : jsLen (jsSlice0 s n) ≤ n := by
  unfold jsLen jsSlice0
  rw [List.length_take]
  exact min_le_left _ _

theorem getD_mem_or_default {α : Type} (l : List α) (i : Nat) (d : α) :
    l.getD i d ∈ l ∨ l.getD i d = d := by
  induction l generalizing i with
  | nil => right; cases i <;> rfl
  | cons a t ih =>
    cases i with
    | zero => left; exact List.mem_cons_self a t
    | succ n =>
      rcases ih n with h | h
      · left; exact List.mem_cons_of_mem _ h
      · right; exact h

/-! ## C7: rerank score bounds -/

/-- C7.  For every passage text, question and similarity value, the
combined rerank score is at least the similarity and at most the
similarity plus 0.25, and it equals the similarity exactly when the
question yields no keywords. -/
theorem rerank_score_bounded (t q : String) (sim : ℚ) :
    sim ≤ rerankScore t q sim ∧ rerankScore t q sim ≤ sim + 0.25 ∧
    (keywords q = [] → rerankScore t q sim = sim) := by
  unfold rerankScore
  by_cases h : keywords q = []
  · simp [h]
    norm_num
  · simp only [h, if_false, if_neg, reduceIte]
    have h0 : (0 : ℚ) ≤ min (0.25 : ℚ)
        ((((keywords q).filter
          (fun k => jsIncludes (jsToLower t) k)).length : ℚ) * (0.03 : ℚ)) := by
      apply le_min
      · norm_num
      · positivity
    have h1 : min (0.25 : ℚ)
        ((((keywords q).filter
          (fun k => jsIncludes (jsToLower t) k)).length : ℚ) * (0.03 : ℚ)) ≤ 0.25 :=
      min_le_left _ _
    refine ⟨by linarith, by linarith, fun hc => hc.elim⟩

/-- Witness for C7 at a question with no keywords. -/
theorem rerank_score_bounded_witness :
    keywords "" = [] ∧ rerankScore "any text" "" (1/2) = 1/2 :=
  ⟨by decide, (rerank_score_bounded "any text" "" (1/2)).2.2 (by decide)⟩

/-! ## C8: snippet budget -/

/-- C8.  For every passage text, question and character budget, the
snippet is at most budget-plus-marker long, and the truncation marker is
appended exactly when the raw snippet exceeded the budget. -/
theorem make_snippet_budget (text q : String) (m : Nat) :
    jsLen (makeSnippet text q m) ≤ m + jsLen ellipsisMark ∧
    (m < jsLen (makeSnippetRaw text q) →
      makeSnippet text q m = jsSlice0 (makeSnippetRaw text q) m ++ ellipsisMark) ∧
    (jsLen (makeSnippetRaw text q) ≤ m →
      makeSnippet text q m = makeSnippetRaw text q) := by
  unfold makeSnippet
  by_cases h : m < jsLen (makeSnippetRaw text q)
  · rw [if_pos h]
    refine ⟨?_, fun _ => rfl, fun h2 => absurd h (not_lt.mpr h2)⟩
    rw [jsLen_append]
    have := jsLen_slice0_le (makeSnippetRaw text q) m
    omega
  · rw [if_neg h]
    refine ⟨?_, fun h2 => absurd h2 h, fun _ => rfl⟩
    rw [not_lt] at h
    omega

/-- Witness for C8: a snippet that is actually truncated. -/
theorem make_snippet_budget_witness :
    10 < jsLen (makeSnippetRaw "hello world this is long" "") ∧
    makeSnippet "hello world this is long" "" 10 =
      jsSlice0 (makeSnippetRaw "hello world this is long" "") 10 ++ ellipsisMark :=
  ⟨by decide,
    (make_snippet_budget "hello world this is long" "" 10).2.1 (by decide)⟩

/-! ## C10: gid truthiness in citation URLs -/

/-- C10.  Every citation's URL is resolved through the truthiness-based
`sheetUrl`: a `gid` of 0 (like a missing one) yields the base document
URL, and the gid fragment is produced only for a nonzero gid. -/
theorem citation_url_gid_truthy (c : MatchChunkRow) :
    (citationOf c).url = sheetUrl c.spreadsheet_id (c.metadata.bind SheetMeta.gid) ∧
    (c.metadata.bind SheetMeta.gid = some 0 →
      (citationOf c).url =
        "https://docs.google.com/spreadsheets/d/" ++ c.spreadsheet_id ++ "/edit") ∧
    (∀ g : Int, c.metadata.bind SheetMeta.gid = some g → g ≠ 0 →
      (citationOf c).url =
        "https://docs.google.com/spreadsheets/d/" ++ c.spreadsheet_id ++
          "/edit#gid=" ++ toString g) ∧
    (c.metadata.bind SheetMeta.gid = none →
      (citationOf c).url =
        "https://docs.google.com/spreadsheets/d/" ++ c.spreadsheet_id ++ "/edit") := by
  refine ⟨rfl, ?_, ?_, ?_⟩
  · intro h
    simp [citationOf, sheetUrl, h]
  · intro g h hg
    simp [citationOf, sheetUrl, h, hg]
  · intro h
    simp [citationOf, sheetUrl, h]

/-- Witness for C10 at `gid = 0` and `gid = 5`. -/
theorem citation_url_gid_truthy_witness :
    (citationOf rowGid0).url =
      "https://docs.google.com/spreadsheets/d/" ++ rowGid0.spreadsheet_id ++ "/edit" ∧
    (citationOf rowGid5).url =
      "https://docs.google.com/spreadsheets/d/" ++ rowGid5.spreadsheet_id ++
        "/edit#gid=" ++ toString (5 : Int) :=
  ⟨(citation_url_gid_truthy rowGid0).2.1 rfl,
   (citation_url_gid_truthy rowGid5).2.2.1 5 rfl (by decide)⟩

/-! ## C9: fallback to the first 30 lines -/

theorem mem_keywords_length (q k : String) (h : k ∈ keywords q) : 3 ≤ jsLen k := by
  unfold keywords at h
  rw [List.mem_filter] at h
  have h2 := h.2
  rw [Bool.and_eq_true] at h2
  exact of_decide_eq_true h2.1

theorem jsIncludes_empty_left (sub : String) (h : sub.data ≠ []) :
    jsIncludes "" sub = false := by
  show containsL sub.data [] = false
  unfold containsL
  cases hs : sub.data with
  | nil => exact absurd hs h
  | cons a t => rfl

theorem snippetLoop_no_hit (lines keys : List String)
    (h : ∀ i, (keys.any fun k => jsIncludes (jsToLower (lines.getD i "")) k) = false) :
    ∀ fuel i blocks picked, snippetLoop lines keys fuel i blocks picked = picked := by
  intro fuel
  induction fuel with
  | zero => intro i blocks picked; rfl
  | succ n ih =>
    intro i blocks picked
    unfold snippetLoop
    by_cases hb : 18 ≤ blocks
    · rw [if_pos hb]
    · rw [if_neg hb]
      simp only [h i, Bool.false_eq_true, if_false, reduceIte]
      exact ih (i + 1) blocks picked

/-- C9 (amended).  When no line of the passage contains a keyword of the
question AND no line among the first 12 is header-ish (contains `|` or,
lowercased, `headers`), the raw snippet is the first 30 lines joined and
trimmed; the evidence is then non-empty whenever that trimmed text is. -/
theorem snippet_fallback_first30 (text q : String)
    (hk : ∀ l ∈ splitLines text, ∀ k ∈ keywords q, jsIncludes (jsToLower l) k = false)
    (hh : ∀ l ∈ (splitLines text).take 12,
      jsIncludes l "|" = false ∧ jsIncludes (jsToLower l) "headers" = false) :
    makeSnippetRaw text q = jsTrim (joinWith "\n" ((splitLines text).take 30)) ∧
    (jsTrim (joinWith "\n" ((splitLines text).take 30)) ≠ "" →
      makeSnippetRaw text q ≠ "") := by
  have hmain : makeSnippetRaw text q =
      jsTrim (joinWith "\n" ((splitLines text).take 30)) := by
    simp only [makeSnippetRaw]
    have hfilter : ((splitLines text).take 12).filter
        (fun l => jsIncludes l "|" || jsIncludes (jsToLower l) "headers") = [] := by
      rw [List.filter_eq_nil_iff]
      intro a ha
      rw [(hh a ha).1, (hh a ha).2]
      decide
    have hloop : ∀ i, ((keywords q).any
        fun k => jsIncludes (jsToLower ((splitLines text).getD i "")) k) = false := by
      intro i
      rw [List.any_eq_false]
      intro k hkmem
      rcases getD_mem_or_default (splitLines text) i "" with hmem | hdef
      · rw [hk _ hmem k hkmem]
        decide
      · rw [hdef]
        have h3 := mem_keywords_length q k hkmem
        have hne : k.data ≠ [] := by
          intro hkd
          unfold jsLen at h3
          rw [hkd] at h3
          simp at h3
        have : jsToLower "" = "" := rfl
        rw [this, jsIncludes_empty_left k hne]
        decide
    rw [hfilter]
    simp only [List.foldl_nil]
    rw [snippetLoop_no_hit _ _ hloop]
    rfl
  exact ⟨hmain, fun hne hz => hne (hmain ▸ hz)⟩

/-- Witness for C9 (amended) on a passage with neither keyword hits nor
header-ish lines. -/
theorem snippet_fallback_first30_witness :
    makeSnippetRaw "hey\nthere" "zzzz" =
      jsTrim (joinWith "\n" ((splitLines "hey\nthere").take 30)) ∧
    (jsTrim (joinWith "\n" ((splitLines "hey\nthere").take 30)) ≠ "" →
      makeSnippetRaw "hey\nthere" "zzzz" ≠ "") :=
  snippet_fallback_first30 "hey\nthere" "zzzz" (by decide) (by decide)

/-- C9 counterexample: with no keyword hit anywhere, a header-ish line
(`a|b`) is still picked, so the extractor does NOT return the first 30
lines; and for whitespace-only text the fallback trims to the empty
string, so non-empty text does not guarantee non-empty evidence. -/
theorem snippet_fallback_counterexample :
    (∀ l ∈ splitLines "a|b\nxyz", ∀ k ∈ keywords "qqq",
      jsIncludes (jsToLower l) k = false) ∧
    makeSnippetRaw "a|b\nxyz" "qqq" = "a|b" ∧
    jsTrim (joinWith "\n" ((splitLines "a|b\nxyz").take 30)) = "a|b\nxyz" ∧
    ("a|b" : String) ≠ "a|b\nxyz" ∧
    (" " : String) ≠ "" ∧
    makeSnippet " " "qqq" 900 = "" := by
  decide

/-! ## C3: deduplication by key -/

theorem lookup_setByKey_self (m : List (String × MatchChunkRow)) (k : String)
    (v : MatchChunkRow) : List.lookup k (setByKey m k v) = some v := by
  induction m with
  | nil => simp [setByKey, List.lookup]
  | cons p rest ih =>
    obtain ⟨k2, v2⟩ := p
    unfold setByKey
    by_cases h : k2 = k
    · rw [if_pos (beq_iff_eq.mpr h)]
      simp [List.lookup]
    · rw [if_neg (by simp [h])]
      have hne : (k == k2) = false := beq_eq_false_iff_ne.mpr (Ne.symm h)
      simp [List.lookup, hne, ih]

theorem lookup_setByKey_ne (m : List (String × MatchChunkRow)) (k k2 : String)
    (v : MatchChunkRow) (h : k2 ≠ k) :
    List.lookup k2 (setByKey m k v) = List.lookup k2 m := by
  induction m with
  | nil =>
    simp [setByKey, List.lookup, beq_eq_false_iff_ne.mpr h]
  | cons p rest ih =>
    obtain ⟨k3, v3⟩ := p
    unfold setByKey
    by_cases h3 : k3 = k
    · rw [if_pos (beq_iff_eq.mpr h3)]
      simp [List.lookup, beq_eq_false_iff_ne.mpr h, h3]
    · rw [if_neg (by simp [h3])]
      by_cases h4 : k2 = k3
      · simp [List.lookup, beq_iff_eq.mpr h4]
      · simp [List.lookup, beq_eq_false_iff_ne.mpr h4, ih]

theorem lookup_mapStep_hit (m : List (String × MatchChunkRow)) (c : MatchChunkRow) :
    List.lookup (dedupKey c) (mapStep m c) =
      stepOpt (List.lookup (dedupKey c) m) c := by
  unfold mapStep stepOpt
  cases hl : List.lookup (dedupKey c) m with
  | none => simp [hl, lookup_setByKey_self]
  | some prev =>
    by_cases hs : prev.similarity < c.similarity
    · simp [hl, hs, lookup_setByKey_self]
    · simp [hl, hs]

theorem lookup_mapStep_miss (m : List (String × MatchChunkRow)) (c : MatchChunkRow)
    (k : String) (h : dedupKey c ≠ k) :
    List.lookup k (mapStep m c) = List.lookup k m := by
  unfold mapStep
  cases hl : List.lookup (dedupKey c) m with
  | none => exact lookup_setByKey_ne _ _ _ _ (Ne.symm h)
  | some prev =>
    dsimp only
    by_cases hs : prev.similarity < c.similarity
    · rw [if_pos hs]
      exact lookup_setByKey_ne _ _ _ _ (Ne.symm h)
    · rw [if_neg hs]

theorem lookup_foldl_mapStep (l : List MatchChunkRow) :
    ∀ (m : List (String × MatchChunkRow)) (k : String),
    List.lookup k (l.foldl mapStep m) =
      (l.filter (fun c => dedupKey c == k)).foldl stepOpt (List.lookup k m) := by
  induction l with
  | nil => intro m k; rfl
  | cons c t ih =>
    intro m k
    rw [List.foldl_cons, ih]
    by_cases h : dedupKey c = k
    · rw [@List.filter_cons_of_pos _ (fun c => dedupKey c == k) c t
        (beq_iff_eq.mpr h), List.foldl_cons]
      subst h
      rw [lookup_mapStep_hit]
    · rw [@List.filter_cons_of_neg _ (fun c => dedupKey c == k) c t
        (by simp [h]), lookup_mapStep_miss m c k h]

theorem mem_setByKey (m : List (String × MatchChunkRow)) (k : String)
    (v : MatchChunkRow) (p : String × MatchChunkRow) (h : p ∈ setByKey m k v) :
    p ∈ m ∨ p = (k, v) := by
  induction m with
  | nil =>
    right
    simpa [setByKey] using h
  | cons p2 rest ih =>
    obtain ⟨k2, v2⟩ := p2
    unfold setByKey at h
    by_cases h2 : (k2 == k) = true
    · rw [if_pos h2] at h
      rcases List.mem_cons.mp h with h3 | h3
      · right; exact h3
      · left; exact List.mem_cons_of_mem _ h3
    · rw [if_neg h2] at h
      rcases List.mem_cons.mp h with h3 | h3
      · left; rw [h3]; exact List.mem_cons_self _ _
      · rcases ih h3 with h4 | h4
        · left; exact List.mem_cons_of_mem _ h4
        · right; exact h4

theorem mem_mapStep (m : List (String × MatchChunkRow)) (c : MatchChunkRow)
    (p : String × MatchChunkRow) (h : p ∈ mapStep m c) :
    p ∈ m ∨ p = (dedupKey c, c) := by
  unfold mapStep at h
  cases hl : List.lookup (dedupKey c) m with
  | none =>
    rw [hl] at h
    exact mem_setByKey _ _ _ _ h
  | some prev =>
    rw [hl] at h
    dsimp only at h
    by_cases hs : prev.similarity < c.similarity
    · rw [if_pos hs] at h
      exact mem_setByKey _ _ _ _ h
    · rw [if_neg hs] at h
      left; exact h

theorem foldl_mapStep_wellKeyed (l : List MatchChunkRow) :
    ∀ (m : List (String × MatchChunkRow)),
    (∀ p ∈ m, p.1 = dedupKey p.2) →
    ∀ p ∈ l.foldl mapStep m, p.1 = dedupKey p.2 := by
  induction l with
  | nil => intro m hm p hp; exact hm p hp
  | cons c t ih =>
    intro m hm p hp
    refine ih (mapStep m c) ?_ p hp
    intro p2 hp2
    rcases mem_mapStep m c p2 hp2 with h | h
    · exact hm p2 h
    · rw [h]

theorem setByKey_pairwise (m : List (String × MatchChunkRow)) (k : String)
    (v : MatchChunkRow) (h : m.Pairwise (fun p q => p.1 ≠ q.1)) :
    (setByKey m k v).Pairwise (fun p q => p.1 ≠ q.1) := by
  induction m with
  | nil => simp [setByKey]
  | cons p2 rest ih =>
    obtain ⟨k2, v2⟩ := p2
    rw [List.pairwise_cons] at h
    unfold setByKey
    by_cases h2 : (k2 == k) = true
    · rw [if_pos h2]
      rw [List.pairwise_cons]
      refine ⟨?_, h.2⟩
      intro q hq
      have := h.1 q hq
      rw [← beq_iff_eq.mp h2]
      exact this
    · rw [if_neg h2]
      rw [List.pairwise_cons]
      refine ⟨?_, ih h.2⟩
      intro q hq
      rcases mem_setByKey _ _ _ _ hq with h3 | h3
      · exact h.1 q h3
      · rw [h3]
        simpa using beq_eq_false_iff_ne.mp (by simpa using h2)

theorem mapStep_pairwise (m : List (String × MatchChunkRow)) (c : MatchChunkRow)
    (h : m.Pairwise (fun p q => p.1 ≠ q.1)) :
    (mapStep m c).Pairwise (fun p q => p.1 ≠ q.1) := by
  unfold mapStep
  cases List.lookup (dedupKey c) m with
  | none => exact setByKey_pairwise _ _ _ h
  | some prev =>
    dsimp only
    by_cases hs : prev.similarity < c.similarity
    · rw [if_pos hs]; exact setByKey_pairwise _ _ _ h
    · rw [if_neg hs]; exact h

theorem foldl_mapStep_pairwise (l : List MatchChunkRow) :
    ∀ (m : List (String × MatchChunkRow)),
    m.Pairwise (fun p q => p.1 ≠ q.1) →
    (l.foldl mapStep m).Pairwise (fun p q => p.1 ≠ q.1) := by
  induction l with
  | nil => intro m hm; exact hm
  | cons c t ih => intro m hm; exact ih (mapStep m c) (mapStep_pairwise m c hm)

theorem byKeyMap_wellKeyed (raw : List MatchChunkRow) :
    ∀ p ∈ byKeyMap raw, p.1 = dedupKey p.2 :=
  foldl_mapStep_wellKeyed raw [] (by simp)

theorem byKeyMap_pairwise (raw : List MatchChunkRow) :
    (byKeyMap raw).Pairwise (fun p q => p.1 ≠ q.1) :=
  foldl_mapStep_pairwise raw [] (by simp)

theorem dedupe_map_key (raw : List MatchChunkRow) :
    (dedupeByKey raw).map (fun d => (dedupKey d, d)) = byKeyMap raw := by
  unfold dedupeByKey
  rw [List.map_map]
  have : ∀ p ∈ byKeyMap raw,
      ((fun d => (dedupKey d, d)) ∘ Prod.snd) p = id p := by
    intro p hp
    have := byKeyMap_wellKeyed raw p hp
    simp only [Function.comp_apply, id_eq]
    rw [← this]
  rw [List.map_congr_left this, List.map_id]

/-- C3 (amended).  Deduplication collapses passages by the joined key
`spreadsheet_id|sheet_name|a1_range` (which coincides with the identity
triple whenever the fields contain no `|`): no two survivors share a key
— hence none share a triple — and the survivor stored under each key is
the first-seen passage of maximal similarity among the raw passages with
that key (a strictly higher similarity replaces, a tie keeps the earlier
passage); in particular the 0.7/0.85 duplicate pair dedupes to the 0.85
version. -/
theorem dedupe_by_key_characterization :
    (∀ raw : List MatchChunkRow,
      (dedupeByKey raw).Pairwise (fun a b => dedupKey a ≠ dedupKey b) ∧
      (dedupeByKey raw).Pairwise (fun a b =>
        ¬(a.spreadsheet_id = b.spreadsheet_id ∧ a.sheet_name = b.sheet_name ∧
          a.a1_range = b.a1_range)) ∧
      ∀ k : String,
        List.lookup k ((dedupeByKey raw).map (fun d => (dedupKey d, d))) =
          pickBest (raw.filter (fun c => dedupKey c == k))) ∧
    dedupeByKey [row07, row085] = [row085] := by
  constructor
  · intro raw
    have hkey : (dedupeByKey raw).Pairwise (fun a b => dedupKey a ≠ dedupKey b) := by
      unfold dedupeByKey
      rw [List.pairwise_map]
      refine (byKeyMap_pairwise raw).imp_of_mem ?_
      intro p q hp hq h
      rw [byKeyMap_wellKeyed raw p hp, byKeyMap_wellKeyed raw q hq] at h
      exact h
    refine ⟨hkey, ?_, ?_⟩
    · refine hkey.imp ?_
      intro a b h htriple
      apply h
      unfold dedupKey
      rw [htriple.1, htriple.2.1, htriple.2.2]
    · intro k
      rw [dedupe_map_key]
      unfold byKeyMap
      rw [lookup_foldl_mapStep]
      rfl
  · with_unfolding_all decide

/-- C3 counterexample: `rowBar1`/`rowBar2` share the identity triple
`("a|b", "c", "d")` with similarities 0.9 and 0.7, yet the 0.9 passage
does not survive — `rowBar3`, a different triple with the same joined
key, displaces the whole class. -/
theorem dedupe_by_key_counterexample :
    rowBar1.spreadsheet_id = rowBar2.spreadsheet_id ∧
    rowBar1.sheet_name = rowBar2.sheet_name ∧
    rowBar1.a1_range = rowBar2.a1_range ∧
    rowBar2.similarity < rowBar1.similarity ∧
    dedupeByKey [rowBar1, rowBar2, rowBar3] = [rowBar3] ∧
    rowBar1 ∉ dedupeByKey [rowBar1, rowBar2, rowBar3] ∧
    rowBar3.sheet_name ≠ rowBar1.sheet_name := by
  with_unfolding_all decide

/-! ## Answer-shaping lemmas -/

theorem mkEvidence_length (q : String) :
    ∀ (i : Nat) (l : List MatchChunkRow), (mkEvidence q i l).length = l.length := by
  intro i l
  induction l generalizing i with
  | nil => rfl
  | cons c t ih => simp [mkEvidence, ih]

theorem mkSources_length (q : String) :
    ∀ (i : Nat) (l : List MatchChunkRow), (mkSources q i l).length = l.length := by
  intro i l
  induction l generalizing i with
  | nil => rfl
  | cons c t ih => simp [mkSources, ih]

theorem mkEvidence_getD (q : String) :
    ∀ (l : List MatchChunkRow) (i j : Nat), j < l.length →
    (mkEvidence q i l).getD j defaultEvidence =
      evidenceEntry q (i + j) (l.getD j defaultRow) := by
  intro l
  induction l with
  | nil => intro i j h; simp at h
  | cons c t ih =>
    intro i j h
    cases j with
    | zero => rfl
    | succ n =>
      have := ih (i + 1) n (by simpa using h)
      simpa [mkEvidence, Nat.add_assoc, Nat.add_comm 1 n] using this

theorem mkCitations_getD :
    ∀ (l : List MatchChunkRow) (j : Nat), j < l.length →
    (mkCitations l).getD j defaultCitation = citationOf (l.getD j defaultRow) := by
  intro l
  induction l with
  | nil => intro j h; simp at h
  | cons c t ih =>
    intro j h
    cases j with
    | zero => rfl
    | succ n => exact ih n (by simpa using h)

/-- If `POST` returns a success after exactly one completion call, the
response was built in the answer-shaping branch: the citations, the
evidence and the prompt sources are the three maps over one non-empty
`top` list. -/
theorem post_ok_shape {svc : Services} {body : AskBody} {a : String}
    {cits : List Citation} {evs : List Evidence} {t : Trace}
    (h : POST svc body = (ApiResponse.ok a cits evs, t))
    (hc : t.completeCalls = 1) :
    ∃ top : List MatchChunkRow, top ≠ [] ∧
      a = jsTrim ((svc.complete (promptMessages
        ((coerceMessages body).drop ((coerceMessages body).length - 8))
        (mkSources (lastUserOf (coerceMessages body)) 0 top))).getD "") ∧
      cits = mkCitations top ∧
      evs = mkEvidence (lastUserOf (coerceMessages body)) 0 top ∧
      t = ⟨2, 2, 1⟩ := by
  simp only [POST] at h
  split at h
  · rw [Prod.mk.injEq] at h
    exact absurd h.1 (by simp)
  · split at h
    · rw [Prod.mk.injEq] at h
      exact absurd h.1 (by simp)
    · split at h
      · rw [Prod.mk.injEq] at h
        exact absurd h.1 (by simp)
      · split at h
        · rw [Prod.mk.injEq] at h
          rw [← h.2] at hc
          exact absurd hc (by simp)
        · split at h
          · rw [Prod.mk.injEq] at h
            rw [← h.2] at hc
            exact absurd hc (by simp)
          · rename_i hne
            simp only [shapeBranch, Prod.mk.injEq, ApiResponse.ok.injEq] at h
            exact ⟨_, hne, h.1.1.symm, h.1.2.1.symm, h.1.2.2.symm, h.2.symm⟩

/-! ## C1: citation/evidence/source alignment -/

/-- C1.  Citations, evidence and rendered sources are three maps over the
same `top` list in the same order: all three have `top`'s length, entry
`j` of each projects the row at position `j`, and `evidence[j].source`
is `j + 1`; and every success response produced after a completion call
carries exactly such lists. -/
theorem citations_evidence_source_alignment :
    (∀ (top : List MatchChunkRow) (q : String),
      (mkSources q 0 top).length = top.length ∧
      (mkCitations top).length = top.length ∧
      (mkEvidence q 0 top).length = top.length ∧
      ∀ j, j < top.length →
        ((mkEvidence q 0 top).getD j defaultEvidence).source = j + 1 ∧
        (mkCitations top).getD j defaultCitation =
          citationOf (top.getD j defaultRow) ∧
        (mkEvidence q 0 top).getD j defaultEvidence =
          evidenceEntry q j (top.getD j defaultRow)) ∧
    (∀ svc body a cits evs t,
      POST svc body = (ApiResponse.ok a cits evs, t) → t.completeCalls = 1 →
      ∃ top, cits = mkCitations top ∧
        evs = mkEvidence (lastUserOf (coerceMessages body)) 0 top ∧
        (mkSources (lastUserOf (coerceMessages body)) 0 top).length = cits.length ∧
        cits.length = evs.length ∧ evs.length = top.length) := by
  constructor
  · intro top q
    refine ⟨mkSources_length q 0 top, by simp [mkCitations],
      mkEvidence_length q 0 top, ?_⟩
    intro j hj
    have he := mkEvidence_getD q top 0 j hj
    rw [Nat.zero_add] at he
    refine ⟨?_, mkCitations_getD top j hj, he⟩
    rw [he]
    rfl
  · intro svc body a cits evs t h hc
    obtain ⟨top, _, _, hcit, hev, _⟩ := post_ok_shape h hc
    refine ⟨top, hcit, hev, ?_, ?_, ?_⟩
    · rw [hcit, mkSources_length]
      simp [mkCitations]
    · rw [hcit, hev, mkEvidence_length]
      simp [mkCitations]
    · rw [hev, mkEvidence_length]

/-- Witness for C1 on a one-row `top` list and a concrete request that
reaches answer shaping. -/
theorem citations_evidence_source_alignment_witness :
    ((mkEvidence "gamma" 0 [demoRow]).getD 0 defaultEvidence).source = 0 + 1 ∧
    (∃ top, mkCitations [demoRow] = mkCitations top ∧
      mkEvidence "gamma" 0 [demoRow] =
        mkEvidence (lastUserOf (coerceMessages bodyDemo)) 0 top ∧
      (mkSources (lastUserOf (coerceMessages bodyDemo)) 0 top).length =
        (mkCitations [demoRow]).length ∧
      (mkCitations [demoRow]).length = (mkEvidence "gamma" 0 [demoRow]).length ∧
      (mkEvidence "gamma" 0 [demoRow]).length = top.length) :=
  ⟨((citations_evidence_source_alignment.1 [demoRow] "gamma").2.2.2 0
      (by decide)).1,
    citations_evidence_source_alignment.2 svcBlankAnswer bodyDemo ""
      (mkCitations [demoRow]) (mkEvidence "gamma" 0 [demoRow]) ⟨2, 2, 1⟩
      (by with_unfolding_all decide) rfl⟩

/-! ## C2: there is no introspection path -/

/-- Once a request passes the missing-question check, every branch of the
handler has already issued both searches. -/
theorem post_trace_after_validation (svc : Services) (body : AskBody)
    (hq : lastUserOf (coerceMessages body) ≠ "") :
    (POST svc body).2 = ⟨2, 2, 0⟩ ∨ (POST svc body).2 = ⟨2, 2, 1⟩ := by
  simp only [POST, if_neg hq]
  split
  · left; rfl
  · split
    · left; rfl
    · split
      · left; rfl
      · split
        · left; rfl
        · right; rfl

/-- C2 (amended).  The handler has no index-introspection path: every
request with a determinable current question — in particular one
containing "how many sheets are indexed" — goes through normal
retrieval, issuing both similarity searches and both embeddings. -/
theorem retriever_always_invoked (svc : Services) (body : AskBody)
    (hq : lastUserOf (coerceMessages body) ≠ "") :
    (POST svc body).2.searchCalls = 2 ∧ (POST svc body).2.embedCalls = 2 := by
  rcases post_trace_after_validation svc body hq with h | h <;> rw [h] <;>
    exact ⟨rfl, rfl⟩

/-- Witness for C2 (amended) on the introspection question itself. -/
theorem retriever_always_invoked_witness :
    (POST svcEmptySearch bodyIntrospection).2.searchCalls = 2 ∧
    (POST svcEmptySearch bodyIntrospection).2.embedCalls = 2 :=
  retriever_always_invoked svcEmptySearch bodyIntrospection (by decide)

/-- C2 counterexample: the current question contains the introspection
phrase, yet the similarity search is invoked (twice, not zero times). -/
theorem introspection_counterexample :
    jsIncludes (lastUserOf (coerceMessages bodyIntrospection))
      "how many sheets are indexed" = true ∧
    (POST svcEmptySearch bodyIntrospection).2.searchCalls ≠ 0 := by
  with_unfolding_all decide

/-! ## C4: blank model answer is returned as an empty success -/

/-- C4 (amended).  When the completion call succeeds but its trimmed text
is blank, the route returns a silent success whose answer is the empty
string; the end user is signaled only by the chat page, which replaces a
blank answer with the fixed non-empty placeholder. -/
theorem blank_completion_silent_empty_success (svc : Services) (body : AskBody)
    (a : String) (cits : List Citation) (evs : List Evidence) (t : Trace)
    (hblank : ∀ ms, jsTrim ((svc.complete ms).getD "") = "")
    (h : POST svc body = (ApiResponse.ok a cits evs, t))
    (hc : t.completeCalls = 1) :
    a = "" ∧ displayAnswer (some a) = EMPTY_ANSWER_PLACEHOLDER ∧
      EMPTY_ANSWER_PLACEHOLDER ≠ "" := by
  obtain ⟨top, _, ha, _, _, _⟩ := post_ok_shape h hc
  have ha0 : a = "" := by rw [ha, hblank]
  subst ha0
  exact ⟨rfl, by decide, by decide⟩

/-- Witness for C4 (amended) on a concrete blank-completion run. -/
theorem blank_completion_witness :
    ("" : String) = "" ∧
    displayAnswer (some "") = EMPTY_ANSWER_PLACEHOLDER ∧
    EMPTY_ANSWER_PLACEHOLDER ≠ "" :=
  blank_completion_silent_empty_success svcBlankAnswer bodyDemo ""
    (mkCitations [demoRow]) (mkEvidence "gamma" 0 [demoRow]) ⟨2, 2, 1⟩
    (fun _ => (by decide : jsTrim ((some ("   " : String)).getD "") = ""))
    (by with_unfolding_all decide) rfl

/-- C4 counterexample: the completion succeeds with blank text and the
route responds with a plain success carrying the empty answer string —
no error and no synthesized placeholder. -/
theorem blank_completion_counterexample :
    (svcBlankAnswer.complete []).isSome = true ∧
    jsTrim ((svcBlankAnswer.complete []).getD "") = "" ∧
    isSuccess (POST svcBlankAnswer bodyDemo).1 = true ∧
    responseAnswer (POST svcBlankAnswer bodyDemo).1 = some "" := by
  with_unfolding_all decide

/-! ## C5: empty search result yields the fixed fallback success -/

/-- C5.  When both searches succeed with an empty (or null) data set and
the request carries a question, the route responds with a success whose
answer is the fixed fallback text and whose citations and evidence are
both empty. -/
theorem empty_search_fallback (svc : Services) (body : AskBody)
    (hok : ∀ v k f, (svc.matchChunks v k f).error = none)
    (hempty : ∀ v k f, (svc.matchChunks v k f).data.getD [] = [])
    (hq : lastUserOf (coerceMessages body) ≠ "") :
    POST svc body = (ApiResponse.ok EMPTY_RAW_ANSWER [] [], ⟨2, 2, 0⟩) := by
  simp only [POST, if_neg hq, hok, hempty, List.append_nil]
  rw [if_pos trivial]

/-- Witness for C5 on a concrete empty-search run. -/
theorem empty_search_fallback_witness :
    POST svcEmptySearch bodyDemo =
      (ApiResponse.ok EMPTY_RAW_ANSWER [] [], ⟨2, 2, 0⟩) :=
  empty_search_fallback svcEmptySearch bodyDemo
    (fun _ _ _ => rfl) (fun _ _ _ => rfl) (by decide)

/-! ## C6: missing question is rejected before any external call -/

/-- No cleaned message is a user turn when every raw user turn has blank
content and the fallback question is blank. -/
theorem coerce_no_user (body : AskBody)
    (hmsg : ∀ m? ∈ body.messages.getD [], noUserContentB m? = true)
    (hq : jsTrim (body.question.getD "") = "") :
    ∀ m ∈ coerceMessages body, m.role ≠ "user" := by
  intro m hm
  simp only [coerceMessages, hq] at hm
  rw [if_neg (by simp), if_neg (by simp)] at hm
  rw [List.mem_filterMap] at hm
  obtain ⟨m?, hmem, hclean⟩ := hm
  intro hrole
  match m? with
  | none => exact absurd hclean (by simp [cleanMessage])
  | some rm =>
    have hb := hmsg (some rm) hmem
    simp only [cleanMessage] at hclean
    split at hclean
    · exact absurd hclean (by simp)
    · split at hclean
      · exact absurd hclean (by simp)
      · rename_i hcontent
        rw [Option.some.injEq] at hclean
        have hrrole : rm.role = "user" := by
          rw [← hclean] at hrole
          exact hrole
        unfold noUserContentB at hb
        rw [Bool.or_eq_true] at hb
        rcases hb with hb | hb
        · rw [bne_iff_ne] at hb
          exact hb hrrole
        · rw [beq_iff_eq] at hb
          exact hcontent hb

/-- C6.  A request with no user turn carrying non-blank content and a
blank (or absent) fallback question is rejected with status 400 before
any external service is called. -/
theorem missing_question_rejected (svc : Services) (body : AskBody)
    (hmsg : ∀ m? ∈ body.messages.getD [], noUserContentB m? = true)
    (hq : jsTrim (body.question.getD "") = "") :
    POST svc body = (ApiResponse.err 400 "Missing question" none, ⟨0, 0, 0⟩) := by
  have hcl := coerce_no_user body hmsg hq
  have hlu : lastUserOf (coerceMessages body) = "" := by
    unfold lastUserOf
    have hfind : (coerceMessages body).reverse.find?
        (fun m => m.role == "user") = none := by
      rw [List.find?_eq_none]
      intro m hm
      have := hcl m (List.mem_reverse.mp hm)
      simp [this]
    rw [hfind]
  simp only [POST, hlu, if_pos]

/-- Witness for C6 on a body with an assistant turn, a blank user turn, a
null entry and a blank fallback question. -/
theorem missing_question_rejected_witness :
    POST svcEmptySearch bodyNoQuestion =
      (ApiResponse.err 400 "Missing question" none, ⟨0, 0, 0⟩) :=
  missing_question_rejected svcEmptySearch bodyNoQuestion (by decide) (by decide)

end CrewQA
